import Mathlib

/-!
Shallow embedding of `indexer/faiss_index.py` from the USB_AI_RAG repository:
the `MetadataDB` sqlite store, the `FaissIndex` facade over a FAISS HNSW
index, the slot-to-document-id mapping and its JSON persistence, and the
`add_vector` / `search` / `save` / `get_stats` operations.  Machine floats are
modelled as rationals; the FAISS library (an external collaborator) is
modelled by exact nearest-neighbour search satisfying its interface contract.
-/

deriving instance DecidableEq for Except

namespace USBAI

/-- A Python dict key as it occurs in `FaissIndex.id_to_doc_id`: `int` keys are
the ones assigned by `add_vector` (`self.id_to_doc_id[faiss_id] = doc_id`),
while `str` keys arise when the mapping is re-loaded from JSON, because
`json.dump` serialises `int` keys as decimal strings and `json.load` returns
them as strings. -/
inductive PyKey where
  | intKey : Nat → PyKey
  | strKey : String → PyKey
deriving DecidableEq, Repr

/-- The caller-supplied columns of one row of the `documents` table
(`file_path`, `file_type`, `content_type`, `metadata` as its `json.dumps`
string, `snippet`).  The `created_at` timestamp column is not modelled. -/
structure DocData where
  file_path : String
  file_type : String
  content_type : String
  metadata : String
  snippet : String
deriving DecidableEq, Repr

/-- A row of the `documents` table together with its `INTEGER PRIMARY KEY`
`id`, which sqlite assigns as 1, 2, 3, ... in insertion order. -/
structure DocRecord where
  id : Nat
  data : DocData
deriving DecidableEq, Repr

/-- `MetadataDB`: the sqlite store, as the list of inserted rows in insertion
order; row `i` (0-based) holds document id `i + 1`. -/
structure MetadataDB where
  docs : List DocData
deriving DecidableEq, Repr

/-- `MetadataDB.add_document`: `INSERT INTO documents ...` followed by
`return cursor.lastrowid`; the sqlite context manager commits before the
method returns, so the row is durable on return. -/
def MetadataDB.add_document (db : MetadataDB) (d : DocData) : Nat × MetadataDB :=
  (db.docs.length + 1, ⟨db.docs ++ [d]⟩)

/-- The rows of the `documents` table with their assigned ids, starting the
id counter above `base` (the table itself is `withIdsFrom 0`). -/
def withIdsFrom : Nat → List DocData → List DocRecord
  | _, [] => []
  | base, d :: ds => ⟨base + 1, d⟩ :: withIdsFrom (base + 1) ds

/-- The `documents` table contents: rows paired with ids `1 .. docs.length`. -/
def MetadataDB.table (db : MetadataDB) : List DocRecord :=
  withIdsFrom 0 db.docs

/-- `MetadataDB.get_document`: `SELECT * FROM documents WHERE id = ?`,
returning the row as a record, or `None` when absent. -/
def MetadataDB.get_document (db : MetadataDB) (i : Nat) : Option DocRecord :=
  db.table.find? (fun r => r.id == i)

/-- SQL `LIKE` pattern matching as sqlite implements it by default:
`%` matches any sequence (tried here as: some suffix of the text matches the
rest of the pattern), `_` matches any single character, and ordinary
characters compare case-insensitively for ASCII (`Char.toLower` folds exactly
the ASCII range, matching sqlite's default `LIKE` behaviour). -/
def likeMatch : List Char → List Char → Bool
  | [], s => s.isEmpty
  | '%' :: ps, s => (s.tails).any (fun t => likeMatch ps t)
  | '_' :: _, [] => false
  | '_' :: ps, _ :: cs => likeMatch ps cs
  | _ :: _, [] => false
  | p :: ps, c :: cs => (p.toLower == c.toLower) && likeMatch ps cs

/-- `MetadataDB.search_documents`: `SELECT * FROM documents WHERE snippet
LIKE '%query%' ORDER BY id DESC LIMIT limit`.  The table is in ascending id
order, so the SQL result is the filtered rows reversed, truncated to
`limit`. -/
def MetadataDB.search_documents (db : MetadataDB) (query : String) (limit : Nat) :
    List DocRecord :=
  ((db.table.filter
      (fun r => likeMatch ("%" ++ query ++ "%").toList r.data.snippet.toList)).reverse).take limit

/-- Boolean test: is `pat` a prefix of `s` (character-exact)? -/
def startsWithChars : List Char → List Char → Bool
  | [], _ => true
  | _ :: _, [] => false
  | a :: as, b :: bs => (a == b) && startsWithChars as bs

/-- Boolean test: does `hay` contain `needle` as a contiguous substring? -/
def isInfixChars : List Char → List Char → Bool
  | needle, [] => needle.isEmpty
  | needle, c :: cs => startsWithChars needle (c :: cs) || isInfixChars needle cs

/-- Literal (case-sensitive) substring containment on strings, the reading of
"snippet contains the substring" used by the specification. -/
def strContains (s sub : String) : Bool :=
  isInfixChars sub.toList s.toList

/-- The FAISS index (`faiss.IndexHNSWFlat(dim, 32)`): its construction
dimension and the stored vectors in insertion order; slot `i` is the `i`-th
inserted vector. -/
structure AnnIndex where
  dim : Nat
  vectors : List (List ℚ)
deriving DecidableEq, Repr

/-- `index.ntotal`: the number of stored vectors. -/
def AnnIndex.ntotal (idx : AnnIndex) : Nat :=
  idx.vectors.length

/-- `_create_new_index`: a fresh empty `IndexHNSWFlat` of the configured
dimension. -/
def freshIndex (dim : Nat) : AnnIndex :=
  ⟨dim, []⟩

/-- Squared L2 distance between two vectors, the metric of
`IndexHNSWFlat`. -/
def sqDist (q v : List ℚ) : ℚ :=
  (List.zipWith (fun a b => (a - b) * (a - b)) q v).sum

/-- All `(slot, distance)` candidate pairs for a query: slot `i` paired with
the squared distance from the query to stored vector `i`. -/
def annCandidates (idx : AnnIndex) (q : List ℚ) : List (Nat × ℚ) :=
  (List.range idx.ntotal).map (fun i => (i, sqDist q (idx.vectors.getD i [])))

/-- Comparison of candidate pairs by distance. -/
def distLe (a b : Nat × ℚ) : Prop :=
  a.2 ≤ b.2

instance : DecidableRel distLe :=
  fun a b => inferInstanceAs (Decidable (a.2 ≤ b.2))

instance : IsTotal (Nat × ℚ) distLe :=
  ⟨fun a b => le_total a.2 b.2⟩

instance : IsTrans (Nat × ℚ) distLe :=
  ⟨fun _ _ _ hab hbc => le_trans hab hbc⟩

/-- Modelled from the FAISS library contract (an external collaborator, not
repository code): `Index.search(q, k)` returns `(slot, squared-distance)`
pairs in ascending distance order; the caller in `FaissIndex.search` always
passes `k = min(requested_k, ntotal)`.  This exact-search model never emits
the `-1` no-more-candidates sentinel, which `FaissIndex.search` filters out;
the filter is therefore not reachable in the model. -/
def AnnIndex.annSearch (idx : AnnIndex) (q : List ℚ) (k : Nat) : List (Nat × ℚ) :=
  (List.insertionSort distLe (annCandidates idx q)).take k

/-- The two persisted files owned by `FaissIndex`: the serialized ANN index
(`db/faiss.index`) and the JSON mapping file (`db/faiss.index.mapping.json`),
whose JSON object has decimal-string keys.  `none` models an absent file. -/
structure Disk where
  indexFile : Option AnnIndex
  mappingFile : Option (List (String × Nat))
deriving DecidableEq, Repr

/-- The in-memory state of a `FaissIndex` instance plus its disk files.  The
`metadata_db` is the sqlite store, durable per call, shared with any later
instance constructed over the same paths. -/
structure FaissState where
  index : Option AnnIndex
  id_to_doc_id : List (PyKey × Nat)
  next_faiss_id : Nat
  metadata_db : MetadataDB
  embedding_dim : Nat
  disk : Disk
deriving DecidableEq, Repr

/-- Python `dict.get` on the `id_to_doc_id` dict: first (unique) binding of
the key, or `None`. -/
def dictGet : List (PyKey × Nat) → PyKey → Option Nat
  | [], _ => none
  | (k', v) :: m, k => if k' = k then some v else dictGet m k

/-- Python dict assignment `m[k] = v`: overwrite in place when the key is
present, otherwise append (insertion order is preserved). -/
def dictInsert (m : List (PyKey × Nat)) (k : PyKey) (v : Nat) : List (PyKey × Nat) :=
  if (dictGet m k).isSome then m.map (fun p => if p.1 = k then (k, v) else p)
  else m ++ [(k, v)]

/-- The exceptions that can escape the modelled operations:
`RuntimeError("Index not initialized")` from `add_vector`, and the
dimension-mismatch assertion raised inside FAISS `Index.add` /
`Index.search`. -/
inductive PyError where
  | runtimeError : PyError
  | dimensionMismatch : PyError
deriving DecidableEq, Repr

/-- The messages printed by `_load_or_create_index` and
`_create_new_index`. -/
inductive LogEvent where
  | loadedExisting : Nat → LogEvent
  | errorLoading : LogEvent
  | createdNew : Nat → LogEvent
deriving DecidableEq, Repr

/-- `json.dump` of the `id_to_doc_id` dict serialises every key as a string
(`int` keys become their decimal representation). -/
def keyToJson : PyKey → String
  | .intKey n => toString n
  | .strKey s => s

/-- The JSON object written to the mapping file. -/
def dumpMapping (m : List (PyKey × Nat)) : List (String × Nat) :=
  m.map (fun p => (keyToJson p.1, p.2))

/-- `json.load` of the mapping file: keys come back as strings. -/
def loadMapping (mf : List (String × Nat)) : List (PyKey × Nat) :=
  mf.map (fun p => (PyKey.strKey p.1, p.2))

/-- `FaissIndex.__init__` + `_load_or_create_index`, returning the constructed
state and the printed log events.  With both files absent a fresh index is
created.  With an index file and no mapping file, the index is loaded and the
mapping stays the empty dict.  With a mapping file present, `json.load`
yields a dict with string keys; if it is empty, `next_faiss_id` is set to `0`
and loading succeeds, otherwise `max(self.id_to_doc_id.keys()) + 1` raises
`TypeError` (string + int), the except-branch creates a new index — but
`self.id_to_doc_id` keeps the string-keyed dict already assigned inside the
try-block, and `next_faiss_id` keeps its initial value `0`.  No comparison of
the mapping's keys against `index.ntotal` is performed anywhere. -/
def mkFaissIndex (dim : Nat) (disk : Disk) (db : MetadataDB) :
    FaissState × List LogEvent :=
  match disk.indexFile with
  | none =>
    ({ index := some (freshIndex dim), id_to_doc_id := [], next_faiss_id := 0,
       metadata_db := db, embedding_dim := dim, disk := disk },
     [LogEvent.createdNew dim])
  | some idx =>
    match disk.mappingFile with
    | none =>
      ({ index := some idx, id_to_doc_id := [], next_faiss_id := 0,
         metadata_db := db, embedding_dim := dim, disk := disk },
       [LogEvent.loadedExisting idx.ntotal])
    | some mf =>
      if mf.isEmpty then
        ({ index := some idx, id_to_doc_id := loadMapping mf, next_faiss_id := 0,
           metadata_db := db, embedding_dim := dim, disk := disk },
         [LogEvent.loadedExisting idx.ntotal])
      else
        ({ index := some (freshIndex dim), id_to_doc_id := loadMapping mf,
           next_faiss_id := 0, metadata_db := db, embedding_dim := dim, disk := disk },
         [LogEvent.errorLoading, LogEvent.createdNew dim])

/-- A `FaissIndex` constructed with no pre-existing files and an empty
metadata database: the empty state every ingestion run starts from. -/
def initState (dim : Nat) : FaissState :=
  (mkFaissIndex dim ⟨none, none⟩ ⟨[]⟩).1

/-- `FaissIndex._save_mapping`: write the JSON mapping file and the FAISS
index file. -/
def save_mapping (s : FaissState) : FaissState :=
  { s with disk := ⟨s.index, some (dumpMapping s.id_to_doc_id)⟩ }

/-- `FaissIndex.add_vector` (body of `with self.lock`).  Order of effects as
in the source: the uninitialized-index check raises first; then the metadata
row is inserted and committed; then FAISS `Index.add` asserts the vector
dimension — on mismatch the exception propagates, leaving the already
written metadata row behind; on success the mapping entry is recorded,
`next_faiss_id` advances, and `_save_mapping` persists mapping and index. -/
def add_vector (s : FaissState) (vector : List ℚ) (d : DocData) :
    (Except PyError Nat) × FaissState :=
  match s.index with
  | none => (Except.error PyError.runtimeError, s)
  | some idx =>
    let r := s.metadata_db.add_document d
    if vector.length = idx.dim then
      let s' : FaissState :=
        { s with
          index := some ⟨idx.dim, idx.vectors ++ [vector]⟩,
          metadata_db := r.2,
          id_to_doc_id := dictInsert s.id_to_doc_id (PyKey.intKey s.next_faiss_id) r.1,
          next_faiss_id := s.next_faiss_id + 1 }
      (Except.ok s.next_faiss_id, save_mapping s')
    else
      (Except.error PyError.dimensionMismatch, { s with metadata_db := r.2 })

/-- `FaissIndex.save` (body of `with self.lock`): persist mapping and index
when an index exists, otherwise do nothing. -/
def FaissState.save (s : FaissState) : FaissState :=
  match s.index with
  | some _ => save_mapping s
  | none => s

/-- One element of the `search` result list:
`{score, distance, faiss_id, document}`. -/
structure SearchResult where
  score : ℚ
  distance : ℚ
  faiss_id : Nat
  document : DocRecord
deriving DecidableEq, Repr

/-- The body of the result loop in `FaissIndex.search` for one
`(slot, distance)` hit: resolve the slot through `id_to_doc_id.get`, skip a
missing mapping entry, skip a falsy `doc_id` (Python `if doc_id:` drops `0`),
fetch the document and skip a failed fetch; otherwise build the result
entry. -/
def joinSlot (s : FaissState) (p : Nat × ℚ) : Option SearchResult :=
  match dictGet s.id_to_doc_id (PyKey.intKey p.1) with
  | none => none
  | some doc_id =>
    if doc_id = 0 then none
    else
      match s.metadata_db.get_document doc_id with
      | none => none
      | some doc => some ⟨p.2, p.2, p.1, doc⟩

/-- `FaissIndex.search` (no lock is taken).  Returns `[]` when the index is
uninitialized or empty; otherwise FAISS `Index.search` is called with
`min(k, ntotal)` — it asserts the query dimension — and each hit is joined
through `joinSlot`, dropped entries being skipped silently.  The returned
state is the input state: the method only reads. -/
def FaissState.search (s : FaissState) (q : List ℚ) (k : Nat) :
    (Except PyError (List SearchResult)) × FaissState :=
  match s.index with
  | none => (Except.ok [], s)
  | some idx =>
    if idx.ntotal = 0 then (Except.ok [], s)
    else if q.length = idx.dim then
      (Except.ok ((idx.annSearch q (min k idx.ntotal)).filterMap (joinSlot s)), s)
    else
      (Except.error PyError.dimensionMismatch, s)

/-- The `get_stats` result shape. -/
structure Stats where
  total_vectors : Nat
  embedding_dim : Nat
  index_type : String
deriving DecidableEq, Repr

/-- `FaissIndex.get_stats`. -/
def FaissState.get_stats (s : FaissState) : Stats :=
  { total_vectors := match s.index with | some idx => idx.ntotal | none => 0,
    embedding_dim := s.embedding_dim,
    index_type := match s.index with | some _ => "IndexHNSWFlat" | none => "None" }

/-- `index.ntotal` as seen through the facade (`0` when uninitialized). -/
def FaissState.count (s : FaissState) : Nat :=
  match s.index with
  | some idx => idx.ntotal
  | none => 0

/-- The three public operations of the facade that touch the vector index
and the identifier map. -/
inductive IndexOp where
  | add : IndexOp
  | search : IndexOp
  | save : IndexOp
deriving DecidableEq, Repr

/-- Which `FaissIndex` methods run their body inside `with self.lock`:
`add_vector` (line 132) and `save` (line 205) do; `search` (lines 164-192)
never touches `self.lock`. -/
def acquiresLock : IndexOp → Bool
  | .add => true
  | .search => false
  | .save => true

/-! ### Invariants of states reached by successful adds -/

/-- The slot-to-document-id dict after `n` successful adds from the empty
state: slot `i` maps to document id `i + 1`, in insertion order. -/
def canonicalMap : Nat → List (PyKey × Nat)
  | 0 => []
  | n + 1 => canonicalMap n ++ [(PyKey.intKey n, n + 1)]

theorem canonicalMap_length (n : Nat) : (canonicalMap n).length = n := by
  induction n with
  | zero => rfl
  | succ n ih => simp [canonicalMap, ih]

theorem canonicalMap_keys (n : Nat) :
    (canonicalMap n).map Prod.fst = (List.range n).map PyKey.intKey := by
  induction n with
  | zero => rfl
  | succ n ih => simp [canonicalMap, List.range_succ, ih]

theorem dictGet_append (l₁ l₂ : List (PyKey × Nat)) (k : PyKey) :
    dictGet (l₁ ++ l₂) k =
      (match dictGet l₁ k with
       | some v => some v
       | none => dictGet l₂ k) := by
  induction l₁ with
  | nil => simp [dictGet]
  | cons p l ih =>
    obtain ⟨k', v⟩ := p
    by_cases h : k' = k
    · simp [dictGet, h]
    · simp [dictGet, h, ih]

theorem dictGet_canonicalMap_of_le (n k : Nat) (h : n ≤ k) :
    dictGet (canonicalMap n) (PyKey.intKey k) = none := by
  induction n with
  | zero => rfl
  | succ n ih =>
    have hk : n ≠ k := by omega
    rw [canonicalMap, dictGet_append, ih (by omega)]
    simp [dictGet, hk]

theorem dictGet_canonicalMap_of_lt (n i : Nat) (h : i < n) :
    dictGet (canonicalMap n) (PyKey.intKey i) = some (i + 1) := by
  induction n with
  | zero => omega
  | succ n ih =>
    rw [canonicalMap, dictGet_append]
    rcases Nat.lt_succ_iff_lt_or_eq.mp h with h' | h'
    · rw [ih h']
    · subst h'
      rw [dictGet_canonicalMap_of_le i i le_rfl]
      simp [dictGet]

/-- The invariant characterising the state after `n` successful `add_vector`
calls from the empty state of dimension `dim`: the index holds `n` vectors,
the dict is the canonical slot-to-id mapping, `next_faiss_id = n`, and the
metadata store holds `n` rows. -/
def StateInv (dim n : Nat) (s : FaissState) : Prop :=
  (∃ vecs : List (List ℚ), vecs.length = n ∧ s.index = some ⟨dim, vecs⟩) ∧
  s.id_to_doc_id = canonicalMap n ∧
  s.next_faiss_id = n ∧
  s.metadata_db.docs.length = n ∧
  s.embedding_dim = dim

/-- States reachable from the empty state of dimension `dim` by any sequence
of successful `add_vector` calls. -/
inductive Reachable (dim : Nat) : FaissState → Prop where
  | init : Reachable dim (initState dim)
  | step {s s' : FaissState} {v : List ℚ} {d : DocData} {slot : Nat} :
      Reachable dim s → add_vector s v d = (Except.ok slot, s') → Reachable dim s'

theorem reachable_inv {dim : Nat} {s : FaissState} (h : Reachable dim s) :
    ∃ n, StateInv dim n s := by
  induction h with
  | init =>
    exact ⟨0, ⟨[], rfl, rfl⟩, rfl, rfl, rfl, rfl⟩
  | @step s s' v d slot _ hadd ih =>
    obtain ⟨n, ⟨vecs, hlen, hidx⟩, hmap, hnext, hdb, hdim⟩ := ih
    rw [add_vector, hidx] at hadd
    dsimp only at hadd
    by_cases hv : v.length = dim
    · rw [if_pos hv] at hadd
      injection hadd with h1 h2
      subst h2
      refine ⟨n + 1, ⟨vecs ++ [v], by simp [hlen], rfl⟩, ?_, ?_, ?_, ?_⟩
      · show dictInsert s.id_to_doc_id (PyKey.intKey s.next_faiss_id)
            (s.metadata_db.add_document d).1 = canonicalMap (n + 1)
        rw [hmap, hnext, dictInsert, dictGet_canonicalMap_of_le n n le_rfl]
        simp [MetadataDB.add_document, hdb, canonicalMap]
      · show s.next_faiss_id + 1 = n + 1
        omega
      · show ((s.metadata_db.add_document d).2).docs.length = n + 1
        simp [MetadataDB.add_document, hdb]
      · exact hdim
    · rw [if_neg hv] at hadd
      exact absurd (congrArg Prod.fst hadd) (by simp)

/-! ### Facts about the documents table -/

theorem withIdsFrom_id_gt (base : Nat) (ds : List DocData) (r : DocRecord)
    (h : r ∈ withIdsFrom base ds) : base < r.id := by
  induction ds generalizing base with
  | nil => simp [withIdsFrom] at h
  | cons d ds ih =>
    rcases List.mem_cons.mp h with h | h
    · subst h
      exact Nat.lt_succ_self base
    · exact Nat.lt_of_succ_lt (ih (base + 1) h)

theorem withIdsFrom_pairwise (base : Nat) (ds : List DocData) :
    (withIdsFrom base ds).Pairwise (fun a b => a.id < b.id) := by
  induction ds generalizing base with
  | nil => exact List.Pairwise.nil
  | cons d ds ih =>
    refine List.Pairwise.cons ?_ (ih (base + 1))
    intro r hr
    exact withIdsFrom_id_gt (base + 1) ds r hr

theorem withIdsFrom_mem_of_lt (base : Nat) (ds : List DocData) (j : Nat)
    (h : j < ds.length) :
    ∃ d, (⟨base + j + 1, d⟩ : DocRecord) ∈ withIdsFrom base ds := by
  induction ds generalizing base j with
  | nil => simp at h
  | cons d ds ih =>
    cases j with
    | zero => exact ⟨d, List.mem_cons_self _ _⟩
    | succ j =>
      obtain ⟨d', hd'⟩ := ih (base + 1) j (by simpa using h)
      refine ⟨d', List.mem_cons_of_mem _ ?_⟩
      have he : base + (j + 1) + 1 = base + 1 + j + 1 := by omega
      rw [he]
      exact hd'

theorem get_document_isSome (db : MetadataDB) (i : Nat) (h1 : 1 ≤ i)
    (h2 : i ≤ db.docs.length) : (db.get_document i).isSome := by
  obtain ⟨d, hd⟩ := withIdsFrom_mem_of_lt 0 db.docs (i - 1) (by omega)
  rw [MetadataDB.get_document, List.find?_isSome]
  refine ⟨⟨0 + (i - 1) + 1, d⟩, hd, ?_⟩
  simp only [beq_iff_eq]
  omega

/-! ### Facts about the join and the ANN search model -/

theorem length_filterMap_of_isSome {α β : Type} (f : α → Option β) (l : List α)
    (h : ∀ x ∈ l, (f x).isSome) : (l.filterMap f).length = l.length := by
  induction l with
  | nil => simp
  | cons a l ih =>
    obtain ⟨b, hb⟩ := Option.isSome_iff_exists.mp (h a (List.mem_cons_self a l))
    rw [List.filterMap_cons, hb]
    simp [ih (fun x hx => h x (List.mem_cons_of_mem a hx))]

theorem joinSlot_spec {s : FaissState} {p : Nat × ℚ} {r : SearchResult}
    (h : joinSlot s p = some r) :
    r.faiss_id = p.1 ∧ r.distance = p.2 ∧
    dictGet s.id_to_doc_id (PyKey.intKey r.faiss_id) = some r.document.id ∧
    s.metadata_db.get_document r.document.id = some r.document := by
  unfold joinSlot at h
  cases hd : dictGet s.id_to_doc_id (PyKey.intKey p.1) with
  | none => rw [hd] at h; exact absurd h (by simp)
  | some doc_id =>
    rw [hd] at h
    dsimp only at h
    by_cases h0 : doc_id = 0
    · rw [if_pos h0] at h; exact absurd h (by simp)
    · rw [if_neg h0] at h
      cases hg : s.metadata_db.get_document doc_id with
      | none => rw [hg] at h; exact absurd h (by simp)
      | some doc =>
        rw [hg] at h
        dsimp only at h
        injection h with h
        subst h
        have hid : doc.id = doc_id := by
          have := List.find?_some hg
          simpa [beq_iff_eq] using this
        exact ⟨rfl, rfl, by rw [hid]; exact hd, by rw [hid]; exact hg⟩

theorem joinSlot_isSome_of_inv {dim n : Nat} {s : FaissState} (hinv : StateInv dim n s)
    {p : Nat × ℚ} (hp : p.1 < n) : (joinSlot s p).isSome := by
  obtain ⟨⟨vecs, hlen, hidx⟩, hmap, hnext, hdb, hdim⟩ := hinv
  unfold joinSlot
  rw [hmap, dictGet_canonicalMap_of_lt n p.1 hp]
  dsimp only
  rw [if_neg (by omega : ¬ p.1 + 1 = 0)]
  have hg := get_document_isSome s.metadata_db (p.1 + 1) (by omega) (by omega)
  cases hgd : s.metadata_db.get_document (p.1 + 1) with
  | none => rw [hgd] at hg; exact absurd hg (by simp)
  | some doc => simp

theorem annCandidates_mem_lt {idx : AnnIndex} {q : List ℚ} {p : Nat × ℚ}
    (h : p ∈ annCandidates idx q) : p.1 < idx.ntotal := by
  unfold annCandidates at h
  obtain ⟨i, hi, he⟩ := List.mem_map.mp h
  rw [← he]
  exact List.mem_range.mp hi

theorem annSearch_mem_lt {idx : AnnIndex} {q : List ℚ} {k : Nat} {p : Nat × ℚ}
    (h : p ∈ idx.annSearch q k) : p.1 < idx.ntotal := by
  unfold AnnIndex.annSearch at h
  exact annCandidates_mem_lt ((List.mem_insertionSort distLe).mp (List.mem_of_mem_take h))

theorem annSearch_length (idx : AnnIndex) (q : List ℚ) (k : Nat) :
    (idx.annSearch q k).length = min k idx.ntotal := by
  rw [AnnIndex.annSearch, List.length_take, List.length_insertionSort]
  simp [annCandidates]

theorem annSearch_pairwise (idx : AnnIndex) (q : List ℚ) (k : Nat) :
    (idx.annSearch q k).Pairwise distLe :=
  List.Pairwise.sublist (List.take_sublist _ _)
    (List.sorted_insertionSort distLe (annCandidates idx q))

/-! ### Concrete fixtures used by counterexamples and witnesses -/

def docA : DocData := ⟨"a.txt", "txt", "text", "null", "alpha"⟩

def docB : DocData := ⟨"b.png", "png", "image", "null", "beta"⟩

def docC : DocData := ⟨"c.wav", "wav", "audio", "null", "gamma"⟩

def docU : DocData := ⟨"u.txt", "txt", "text", "null", "A"⟩

def docV : DocData := ⟨"v.txt", "txt", "text", "null", "axb"⟩

/-- The state after one successful `add_vector` of `[1,0,0,0]` (dimension 4)
from the empty state. -/
def stateOne : FaissState :=
  (add_vector (initState 4) ([1, 0, 0, 0] : List ℚ) docA).2

/-- `stateOne` after `save()`. -/
def savedOne : FaissState :=
  stateOne.save

/-- A fresh `FaissIndex` constructed over the files persisted by `savedOne`
(same index file, mapping file and metadata database), with the log of the
construction. -/
def reloadedOne : FaissState × List LogEvent :=
  mkFaissIndex 4 savedOne.disk savedOne.metadata_db

/-- A disk state whose index file holds one vector while its mapping file
holds the empty JSON object: the persisted mapping has no key at all, so its
maximum key is undefined and in particular differs from `ntotal - 1 = 0`. -/
def inconsistentDisk : Disk :=
  ⟨some ⟨4, [[1, 0, 0, 0]]⟩, some []⟩

/-! ### Claim C1 -/

/-- C1 counterexample: the claim "add with a wrong-dimension vector performs
no mutation ... and fails before any side effect" is false at a concrete
input.  Adding a 3-element vector to the empty dimension-4 index raises the
dimension error (modelled as `Except.error`), yet the metadata store has
already grown by one row: its last-assigned document id is 1 after the call,
not 0. -/
theorem C1_counterexample :
    (add_vector (initState 4) ([1, 0, 0] : List ℚ) docB).1
      = Except.error PyError.dimensionMismatch ∧
    (initState 4).metadata_db.docs.length = 0 ∧
    (add_vector (initState 4) ([1, 0, 0] : List ℚ) docB).2.metadata_db.docs.length = 1 := by
  decide

/-- C1 (amended): for every state with an initialized index and every vector
whose length differs from the index dimension, `add_vector` fails with the
dimension error; `VectorIndex.count()`, `IdentifierMap.size()` (the dict),
`next_faiss_id` and the persisted files are unchanged, but the MetadataStore
write has already happened: its row count (last-assigned document id)
increments by one, leaving an orphaned record.  The failure occurs after the
metadata side effect, not before all side effects. -/
theorem C1_amended (s : FaissState) (idx : AnnIndex) (v : List ℚ) (d : DocData)
    (hidx : s.index = some idx) (hdim : ¬ v.length = idx.dim) :
    (add_vector s v d).1 = Except.error PyError.dimensionMismatch ∧
    (add_vector s v d).2.count = s.count ∧
    (add_vector s v d).2.id_to_doc_id = s.id_to_doc_id ∧
    (add_vector s v d).2.next_faiss_id = s.next_faiss_id ∧
    (add_vector s v d).2.disk = s.disk ∧
    (add_vector s v d).2.metadata_db.docs.length = s.metadata_db.docs.length + 1 := by
  have h : add_vector s v d =
      (Except.error PyError.dimensionMismatch,
       { s with metadata_db := (s.metadata_db.add_document d).2 }) := by
    rw [add_vector, hidx]
    dsimp only
    rw [if_neg hdim]
  rw [h]
  exact ⟨rfl, rfl, rfl, rfl, rfl, by simp [MetadataDB.add_document]⟩

/-- Witness for `C1_amended` at the concrete counterexample input. -/
theorem C1_amended_witness :
    (initState 4).index = some (freshIndex 4) ∧
    ¬ ([1, 0, 0] : List ℚ).length = (freshIndex 4).dim ∧
    ((add_vector (initState 4) ([1, 0, 0] : List ℚ) docB).1
        = Except.error PyError.dimensionMismatch ∧
     (add_vector (initState 4) ([1, 0, 0] : List ℚ) docB).2.count = (initState 4).count ∧
     (add_vector (initState 4) ([1, 0, 0] : List ℚ) docB).2.id_to_doc_id
        = (initState 4).id_to_doc_id ∧
     (add_vector (initState 4) ([1, 0, 0] : List ℚ) docB).2.next_faiss_id
        = (initState 4).next_faiss_id ∧
     (add_vector (initState 4) ([1, 0, 0] : List ℚ) docB).2.disk = (initState 4).disk ∧
     (add_vector (initState 4) ([1, 0, 0] : List ℚ) docB).2.metadata_db.docs.length
        = (initState 4).metadata_db.docs.length + 1) :=
  ⟨rfl, by decide, C1_amended (initState 4) (freshIndex 4) ([1, 0, 0] : List ℚ) docB rfl (by decide)⟩

/-! ### Claim C2 -/

/-- C2 (code bug): the persist-then-reload round trip fails on the code's own
files.  After one successful add and `save()`, the mapping file holds the
JSON object with the string key "0" (`json.dump` stringifies `int` keys).  A
fresh `FaissIndex` over the same files runs
`max(self.id_to_doc_id.keys()) + 1` on string keys, which raises `TypeError`;
the except-branch logs a load error and creates a new empty index.  The
reloaded `stats()` therefore reports 0 vectors instead of 1, and the same
top-1 query that returned the stored document now returns the empty list. -/
theorem C2_reload_drops_vectors :
    savedOne.get_stats = ⟨1, 4, "IndexHNSWFlat"⟩ ∧
    savedOne.disk.mappingFile = some [(("0" : String), 1)] ∧
    reloadedOne.1.get_stats = ⟨0, 4, "IndexHNSWFlat"⟩ ∧
    ¬ reloadedOne.1.get_stats = savedOne.get_stats ∧
    reloadedOne.2 = [LogEvent.errorLoading, LogEvent.createdNew 4] ∧
    (reloadedOne.1.search ([1, 0, 0, 0] : List ℚ) 1).1 = Except.ok [] ∧
    ¬ (reloadedOne.1.search ([1, 0, 0, 0] : List ℚ) 1).1
        = (savedOne.search ([1, 0, 0, 0] : List ℚ) 1).1 := by
  with_unfolding_all decide

/-! ### Claim C4 -/

/-- C4 counterexample: the claim "every operation that reads or mutates the
VectorIndex or IdentifierMap — add, search, and save — acquires the single
mutual-exclusion lock" is false: `FaissIndex.search` never acquires
`self.lock`. -/
theorem C4_counterexample : ¬ (∀ op : IndexOp, acquiresLock op = true) := by
  intro h
  exact absurd (h IndexOp.search) (by decide)

/-- C4 (amended): `add_vector` and `save` run their bodies inside
`with self.lock` and are therefore serialized against each other, but
`search` does not acquire the lock at all, so a search is not serialized
against concurrent add/save calls. -/
theorem C4_amended :
    acquiresLock IndexOp.add = true ∧
    acquiresLock IndexOp.save = true ∧
    acquiresLock IndexOp.search = false := by
  decide

/-! ### Claim C5 -/

/-- C5 counterexample: a persisted mapping (the empty JSON object) alongside
an index file holding one vector — maximum key undefined, hence different
from `ntotal - 1 = 0` — is loaded without any complaint: the constructed
state keeps the loaded one-vector index (it is not treated as freshly
created), and the only log message is the normal "Loaded existing FAISS
index" line, not a divergence warning. -/
theorem C5_counterexample :
    inconsistentDisk.mappingFile = some [] ∧
    (inconsistentDisk.indexFile.getD (freshIndex 4)).ntotal = 1 ∧
    (mkFaissIndex 4 inconsistentDisk ⟨[]⟩).1.index
      = some (⟨4, [[1, 0, 0, 0]]⟩ : AnnIndex) ∧
    ¬ (mkFaissIndex 4 inconsistentDisk ⟨[]⟩).1.index = some (freshIndex 4) ∧
    (mkFaissIndex 4 inconsistentDisk ⟨[]⟩).2 = [LogEvent.loadedExisting 1] := by
  decide

/-- C5 (amended): on startup load no consistency check between the persisted
mapping and the loaded index's vector count is performed.  A mapping file
that deserializes to the empty dict is accepted silently (normal load log,
loaded index kept) even when the index is non-empty, i.e. inconsistent; any
non-empty mapping file — consistent or not — makes the load fall back to a
fresh index, but only because computing the next slot from JSON string keys
raises `TypeError`, and the log is a generic load error, not the
divergence. -/
theorem C5_amended (dim : Nat) (idx : AnnIndex) (mf : List (String × Nat))
    (db : MetadataDB) :
    (mkFaissIndex dim ⟨some idx, some mf⟩ db).1.index
      = some (if mf.isEmpty then idx else freshIndex dim) ∧
    (mkFaissIndex dim ⟨some idx, some mf⟩ db).2
      = (if mf.isEmpty then [LogEvent.loadedExisting idx.ntotal]
         else [LogEvent.errorLoading, LogEvent.createdNew dim]) := by
  by_cases h : mf.isEmpty <;> simp [mkFaissIndex, h]

/-! ### Claim C3 -/

/-- C3: after every successful `add_vector` call, in any sequence of
successful adds from the empty state, `VectorIndex.count()` (`index.ntotal`)
equals `IdentifierMap.size()` (`len(id_to_doc_id)`) equals the number of
document ids assigned (the metadata row count), the mapping's key domain is
exactly `{0 .. next_faiss_id - 1}` with no gaps and in order, and
`next_faiss_id` equals the live vector count. -/
theorem C3_count_invariants (dim : Nat) (s : FaissState) (h : Reachable dim s) :
    s.count = s.id_to_doc_id.length ∧
    s.id_to_doc_id.length = s.metadata_db.docs.length ∧
    s.id_to_doc_id.map Prod.fst = (List.range s.next_faiss_id).map PyKey.intKey ∧
    s.next_faiss_id = s.count := by
  obtain ⟨n, ⟨vecs, hlen, hidx⟩, hmap, hnext, hdb, hdim⟩ := reachable_inv h
  have hcount : s.count = n := by
    simp [FaissState.count, hidx, AnnIndex.ntotal, hlen]
  refine ⟨?_, ?_, ?_, ?_⟩
  · rw [hcount, hmap, canonicalMap_length]
  · rw [hmap, canonicalMap_length, hdb]
  · rw [hmap, hnext, canonicalMap_keys]
  · rw [hnext, hcount]

/-- Witness for `C3_count_invariants`: the invariant checked on the concrete
reachable state after one successful add. -/
theorem C3_count_invariants_witness :
    Reachable 4 stateOne ∧
    (stateOne.count = stateOne.id_to_doc_id.length ∧
     stateOne.id_to_doc_id.length = stateOne.metadata_db.docs.length ∧
     stateOne.id_to_doc_id.map Prod.fst
        = (List.range stateOne.next_faiss_id).map PyKey.intKey ∧
     stateOne.next_faiss_id = stateOne.count) := by
  have hadd : add_vector (initState 4) ([1, 0, 0, 0] : List ℚ) docA
      = (Except.ok 0, stateOne) := rfl
  have hr : Reachable 4 stateOne := Reachable.step Reachable.init hadd
  exact ⟨hr, C3_count_invariants 4 stateOne hr⟩

/-! ### Claim C6 -/

/-- C6 counterexample: the claim "an add failure is reported to the caller as
a boolean/result value (not an uncaught exception), and a search failure
yields an empty result list rather than a crash" is false at concrete inputs.
`add_vector` with a wrong-dimension vector lets the FAISS assertion escape to
the caller (modelled as `Except.error`; nothing in `add_vector` catches it,
and it returns no boolean), and `search` with a wrong-dimension query on a
non-empty index likewise raises instead of returning `[]`. -/
theorem C6_counterexample :
    (add_vector (initState 4) ([1, 0] : List ℚ) docC).1
      = Except.error PyError.dimensionMismatch ∧
    ((add_vector (initState 4) ([1, 0, 0, 0] : List ℚ) docC).2.search
        ([1, 0] : List ℚ) 1).1 = Except.error PyError.dimensionMismatch := by
  with_unfolding_all decide

/-- C6 (amended): `search` returns the empty list only when the index is
uninitialized or empty; otherwise component failures propagate to the caller
as exceptions rather than being converted into degraded results — in
particular `add_vector` raises on a wrong-dimension vector (and
`RuntimeError` on an uninitialized index) instead of reporting a boolean. -/
theorem C6_amended (s t : FaissState) (q v : List ℚ) (k : Nat) (idx : AnnIndex)
    (d : DocData) (hs : s.index = none ∨ s.count = 0)
    (ht : t.index = some idx) (hv : ¬ v.length = idx.dim) :
    (s.search q k).1 = Except.ok [] ∧
    (add_vector t v d).1 = Except.error PyError.dimensionMismatch := by
  constructor
  · rcases hs with hs | hs
    · simp [FaissState.search, hs]
    · cases hidx : s.index with
      | none => simp [FaissState.search, hidx]
      | some idx2 =>
        have h0 : idx2.ntotal = 0 := by
          simpa [FaissState.count, hidx] using hs
        simp [FaissState.search, hidx, h0]
  · rw [add_vector, ht]
    dsimp only
    rw [if_neg hv]

/-- Witness for `C6_amended` at concrete inputs: the empty dimension-4 state
for the search half, and a 2-element vector for the add half. -/
theorem C6_amended_witness :
    ((initState 4).index = none ∨ (initState 4).count = 0) ∧
    (initState 4).index = some (freshIndex 4) ∧
    ¬ ([1, 0] : List ℚ).length = (freshIndex 4).dim ∧
    (((initState 4).search ([9] : List ℚ) 3).1 = Except.ok [] ∧
     (add_vector (initState 4) ([1, 0] : List ℚ) docC).1
        = Except.error PyError.dimensionMismatch) :=
  ⟨Or.inr rfl, rfl, by decide,
   C6_amended (initState 4) (initState 4) ([9] : List ℚ) ([1, 0] : List ℚ) 3
     (freshIndex 4) docC (Or.inr rfl) rfl (by decide)⟩

/-! ### Claim C7 -/

/-- C7: for every reachable state, every query vector of the configured
dimension and every `k`, `search` succeeds with a result list ordered by
ascending distance whose length is `min k count`, and returns the empty list
(never an error) when the index is empty. -/
theorem C7_search_ordered_length (dim : Nat) (s : FaissState) (q : List ℚ) (k : Nat)
    (hr : Reachable dim s) (hq : q.length = dim) :
    (∃ res : List SearchResult,
        (s.search q k).1 = Except.ok res ∧
        res.length = min k s.count ∧
        res.Pairwise (fun a b => a.distance ≤ b.distance)) ∧
    (s.count = 0 → (s.search q k).1 = Except.ok []) := by
  obtain ⟨n, hinv⟩ := reachable_inv hr
  obtain ⟨⟨vecs, hlen, hidx⟩, hmap, hnext, hdb, hdim⟩ := hinv
  have hcount : s.count = n := by
    simp [FaissState.count, hidx, AnnIndex.ntotal, hlen]
  have hnt : (⟨dim, vecs⟩ : AnnIndex).ntotal = n := by
    simp [AnnIndex.ntotal, hlen]
  by_cases hn : n = 0
  · have hok : (s.search q k).1 = Except.ok [] := by
      simp [FaissState.search, hidx, AnnIndex.ntotal, hlen, hn]
    exact ⟨⟨[], hok, by simp [hcount, hn], List.Pairwise.nil⟩, fun _ => hok⟩
  · have hres : (s.search q k).1 = Except.ok
        (((⟨dim, vecs⟩ : AnnIndex).annSearch q
            (min k (⟨dim, vecs⟩ : AnnIndex).ntotal)).filterMap (joinSlot s)) := by
      have hq' : q.length = (⟨dim, vecs⟩ : AnnIndex).dim := hq
      simp [FaissState.search, hidx, AnnIndex.ntotal, hlen, hn, hq']
    have hall : ∀ p ∈ (⟨dim, vecs⟩ : AnnIndex).annSearch q
        (min k (⟨dim, vecs⟩ : AnnIndex).ntotal), (joinSlot s p).isSome := by
      intro p hp
      have hlt : p.1 < n := by
        have := annSearch_mem_lt hp
        rwa [hnt] at this
      exact joinSlot_isSome_of_inv ⟨⟨vecs, hlen, hidx⟩, hmap, hnext, hdb, hdim⟩ hlt
    refine ⟨⟨_, hres, ?_, ?_⟩, fun h0 => absurd (hcount ▸ h0) hn⟩
    · rw [length_filterMap_of_isSome _ _ hall, annSearch_length, hnt, hcount]
      omega
    · refine List.pairwise_filterMap.mpr ?_
      refine (annSearch_pairwise _ _ _).imp ?_
      intro a b hab x hx y hy
      have hxa := joinSlot_spec (Option.mem_def.mp hx)
      have hyb := joinSlot_spec (Option.mem_def.mp hy)
      rw [hxa.2.1, hyb.2.1]
      exact hab

/-- Witness for `C7_search_ordered_length` on the concrete reachable state
after one add, querying with the stored vector itself. -/
theorem C7_search_ordered_length_witness :
    Reachable 4 stateOne ∧ ([1, 0, 0, 0] : List ℚ).length = 4 ∧
    ((∃ res : List SearchResult,
        (stateOne.search ([1, 0, 0, 0] : List ℚ) 1).1 = Except.ok res ∧
        res.length = min 1 stateOne.count ∧
        res.Pairwise (fun a b => a.distance ≤ b.distance)) ∧
     (stateOne.count = 0 →
        (stateOne.search ([1, 0, 0, 0] : List ℚ) 1).1 = Except.ok [])) := by
  have hadd : add_vector (initState 4) ([1, 0, 0, 0] : List ℚ) docA
      = (Except.ok 0, stateOne) := rfl
  have hr : Reachable 4 stateOne := Reachable.step Reachable.init hadd
  exact ⟨hr, rfl, C7_search_ordered_length 4 stateOne ([1, 0, 0, 0] : List ℚ) 1 hr rfl⟩

/-! ### Claim C8 -/

/-- C8: whenever `search` returns a result list, every element of it carries
a successfully joined document record: its slot resolves through the
identifier map and the resolved document id fetches an actual document whose
record is the one in the result.  Slots that fail to resolve or to fetch are
dropped from the list rather than failing the whole search. -/
theorem C8_join_total (s : FaissState) (q : List ℚ) (k : Nat)
    (res : List SearchResult) (h : (s.search q k).1 = Except.ok res) :
    ∀ r ∈ res, ∃ doc_id : Nat,
      dictGet s.id_to_doc_id (PyKey.intKey r.faiss_id) = some doc_id ∧
      s.metadata_db.get_document doc_id = some r.document := by
  intro r hr
  have hres : r ∈ ((s.index.getD (freshIndex 0)).annSearch q
      (min k (s.index.getD (freshIndex 0)).ntotal)).filterMap (joinSlot s) := by
    rw [FaissState.search] at h
    cases hidx : s.index with
    | none =>
      rw [hidx] at h
      injection h with h
      subst h
      exact absurd hr (List.not_mem_nil r)
    | some idx =>
      rw [hidx] at h
      dsimp only at h
      by_cases h0 : idx.ntotal = 0
      · rw [if_pos h0] at h
        injection h with h
        subst h
        exact absurd hr (List.not_mem_nil r)
      · rw [if_neg h0] at h
        by_cases hq : q.length = idx.dim
        · rw [if_pos hq] at h
          injection h with h
          subst h
          simpa [hidx] using hr
        · rw [if_neg hq] at h
          exact absurd h (by simp)
  obtain ⟨p, _, hjoin⟩ := List.mem_filterMap.mp hres
  obtain ⟨-, -, hdict, hdoc⟩ := joinSlot_spec hjoin
  exact ⟨r.document.id, hdict, hdoc⟩

/-- The result list returned by the witness search below. -/
def resOne : List SearchResult :=
  [⟨0, 0, 0, ⟨1, docA⟩⟩]

/-- Witness for `C8_join_total`: a concrete search whose single result is
checked to be a successfully joined record. -/
theorem C8_join_total_witness :
    (stateOne.search ([1, 0, 0, 0] : List ℚ) 1).1 = Except.ok resOne ∧
    (∀ r ∈ resOne, ∃ doc_id : Nat,
      dictGet stateOne.id_to_doc_id (PyKey.intKey r.faiss_id) = some doc_id ∧
      stateOne.metadata_db.get_document doc_id = some r.document) := by
  have h : (stateOne.search ([1, 0, 0, 0] : List ℚ) 1).1 = Except.ok resOne := by
    with_unfolding_all decide
  exact ⟨h, C8_join_total stateOne ([1, 0, 0, 0] : List ℚ) 1 resOne h⟩

/-! ### Claim C9 -/

/-- C9 counterexample: the claim "text search returns only records whose
snippet contains the substring" is false, because SQL `LIKE` matches
case-insensitively and treats `%` and `_` as wildcards.  A record with
snippet "A" is returned for the query "a" although "A" does not contain "a",
and a record with snippet "axb" is returned for the query containing a `%`
wildcard although the snippet does not contain that query text. -/
theorem C9_counterexample :
    MetadataDB.search_documents ⟨[docU]⟩ ("a") 10 = [⟨1, docU⟩] ∧
    strContains docU.snippet ("a") = false ∧
    MetadataDB.search_documents ⟨[docV]⟩ ("a%b") 10 = [⟨1, docV⟩] ∧
    strContains docV.snippet ("a%b") = false := by
  decide

/-- C9 (amended): for every database, query and limit, `search_documents`
returns only records whose snippet matches the SQL `LIKE` pattern
`%query%` — case-insensitive, with `%` and `_` as wildcards (this coincides
with substring containment only for wildcard-free queries and up to ASCII
case) — at most `limit` of them, ordered most-recently-inserted first, i.e.
by strictly descending document id. -/
theorem C9_amended (db : MetadataDB) (query : String) (limit : Nat) :
    (∀ r ∈ db.search_documents query limit,
        likeMatch ("%" ++ query ++ "%").toList r.data.snippet.toList = true) ∧
    (db.search_documents query limit).length ≤ limit ∧
    (db.search_documents query limit).Pairwise (fun a b => b.id < a.id) := by
  refine ⟨?_, ?_, ?_⟩
  · intro r hr
    rw [MetadataDB.search_documents] at hr
    exact (List.mem_filter.mp (List.mem_reverse.mp (List.mem_of_mem_take hr))).2
  · rw [MetadataDB.search_documents, List.length_take]
    exact Nat.min_le_left _ _
  · have hp : (db.table.filter
        (fun r => likeMatch ("%" ++ query ++ "%").toList
          r.data.snippet.toList)).Pairwise (fun a b => a.id < b.id) :=
      List.Pairwise.sublist (List.filter_sublist _) (withIdsFrom_pairwise 0 db.docs)
    rw [MetadataDB.search_documents]
    exact List.Pairwise.sublist (List.take_sublist _ _) (List.pairwise_reverse.mpr hp)

/-! ### Claim C10 -/

/-- C10: `search` mutates nothing — the state after any `search` call (the
vector index, the slot-to-document-id mapping, the next-slot counter, the
metadata store and the persisted files) is exactly the state before it. -/
theorem C10_search_no_mutation (s : FaissState) (q : List ℚ) (k : Nat) :
    (s.search q k).2 = s := by
  rw [FaissState.search]
  cases hidx : s.index with
  | none => rfl
  | some idx =>
    dsimp only
    by_cases h0 : idx.ntotal = 0
    · rw [if_pos h0]
    · rw [if_neg h0]
      by_cases hq : q.length = idx.dim
      · rw [if_pos hq]
      · rw [if_neg hq]

end USBAI
